import Mathlib

/-!
Verification of the fantasy-points pipeline of the portfolio API.

The JavaScript source is embedded shallowly:
* the scoring engine of routes/fantasy.js (POINTS_SYSTEM,
  calculateQualifyingPoints, calculateRacePoints);
* the admission queue of utils/queue.js (RequestQueue) as a step relation;
* the result caches of utils/cache.js and the bounded cache variant
  (getCachedData with MAX_CACHE_SIZE and TTL classes);
* the process adapter of utils/pythonQueue.js (runPythonScriptQueued)
  as an event-driven settlement machine;
* the points route of routes/fantasy.js as a handler with an explicit
  effect trace.

JavaScript idioms are made explicit: objects used as maps become
association lists looked up by first match, null-valued numbers become
Option Int (with the arithmetic coercion null = 0 made explicit), and
truthiness tests on numbers become comparisons with 0.
-/

namespace JsMap

/-- JS Map.get / object index: first binding for a key in an association
list (keys are unique in a real Map, so first match is the binding). -/
def get {α : Type} (m : List (String × α)) (k : String) : Option α :=
  match m with
  | [] => none
  | (k1, v) :: rest => if k1 = k then some v else get rest k

/-- JS Map.set: update the existing binding in place, otherwise append
(insertion order is preserved, as for a JS Map). -/
def set {α : Type} (m : List (String × α)) (k : String) (v : α) :
    List (String × α) :=
  match m with
  | [] => [(k, v)]
  | (k1, v1) :: rest =>
      if k1 = k then (k1, v) :: rest else (k1, v1) :: set rest k v

/-- JS Map.delete: remove the binding for a key. -/
def del {α : Type} (m : List (String × α)) (k : String) :
    List (String × α) :=
  match m with
  | [] => []
  | (k1, v1) :: rest => if k1 = k then rest else (k1, v1) :: del rest k

theorem get_append {α : Type} (l1 l2 : List (String × α)) (k : String) :
    get (l1 ++ l2) k =
      match get l1 k with
      | some v => some v
      | none => get l2 k := by
  induction l1 with
  | nil => simp [get]
  | cons p rest ih =>
      obtain ⟨k1, v⟩ := p
      by_cases h : k1 = k <;> simp [get, h, ih]

end JsMap

namespace Fantasy

/-- POINTS_SYSTEM.race.positions from routes/fantasy.js: note the table
carries explicit zero entries for positions 11 through 20. -/
def racePositionPoints : Int → Option Int
  | 1 => some 25
  | 2 => some 18
  | 3 => some 15
  | 4 => some 12
  | 5 => some 10
  | 6 => some 8
  | 7 => some 6
  | 8 => some 4
  | 9 => some 2
  | 10 => some 1
  | 11 => some 0
  | 12 => some 0
  | 13 => some 0
  | 14 => some 0
  | 15 => some 0
  | 16 => some 0
  | 17 => some 0
  | 18 => some 0
  | 19 => some 0
  | 20 => some 0
  | _ => none

/-- POINTS_SYSTEM.qualifying.positions from routes/fantasy.js. -/
def qualiPositionPoints : Int → Option Int
  | 1 => some 10
  | 2 => some 9
  | 3 => some 8
  | 4 => some 7
  | 5 => some 6
  | 6 => some 5
  | 7 => some 4
  | 8 => some 3
  | 9 => some 2
  | 10 => some 1
  | _ => none

/-- POINTS_SYSTEM.qualifying.Q2_appearance. -/
def Q2_appearance : Int := 0
/-- POINTS_SYSTEM.qualifying.Q3_appearance. -/
def Q3_appearance : Int := 0
/-- POINTS_SYSTEM.race.positionsGained. -/
def racePositionsGainedPts : Int := 1
/-- POINTS_SYSTEM.race.positionsLost. -/
def racePositionsLostPts : Int := -1
/-- POINTS_SYSTEM.race.overtakes. -/
def raceOvertakesPts : Int := 1
/-- POINTS_SYSTEM.race.fastestLap. -/
def raceFastestLapPts : Int := 10
/-- POINTS_SYSTEM.race.driverOfTheDay. -/
def raceDriverOfTheDayPts : Int := 10
/-- POINTS_SYSTEM.race.dnf. -/
def raceDnfPts : Int := -20
/-- POINTS_SYSTEM.race.disqualified. -/
def raceDisqualifiedPts : Int := -20

/-- A driver's qualifying record as handed to the scoring engine. -/
structure QualifyingResult where
  driver : String := ""
  position : Option Int := none
  Q2 : Bool := false
  Q3 : Bool := false
  deriving Repr, DecidableEq

/-- A driver's race record as handed to the scoring engine.  `position`
is int-or-null in the source; `dnf` is the explicit flag computed by the
data script; `overtakes` is a JS number tested for truthiness. -/
structure RaceResult where
  driver : String := ""
  position : Option Int := none
  status : String := ""
  dnf : Bool := false
  fastestLap : Bool := false
  driverOfTheDay : Bool := false
  overtakes : Int := 0
  deriving Repr, DecidableEq

/-- JS arithmetic coercion: null behaves as 0 inside `a - b`. -/
def jsNum (o : Option Int) : Int := o.getD 0

/-- The running `{ points, breakdown }` accumulator of the scoring
functions.  Breakdown keys are appended in evaluation order. -/
structure ScoreResult where
  points : Int
  breakdown : List (String × Int)
  deriving Repr, DecidableEq

/-- One `points += v; breakdown.key = v` step of the source. -/
def addComp (s : ScoreResult) (key : String) (v : Int) : ScoreResult :=
  ⟨s.points + v, s.breakdown ++ [(key, v)]⟩

/-- calculateQualifyingPoints from routes/fantasy.js.  The position
lookup is guarded by JS truthiness (`if (positions[p])`), so a zero
table value would be skipped; the table has no zero values. -/
def calculateQualifyingPoints (q : QualifyingResult) : ScoreResult :=
  let s0 : ScoreResult := ⟨0, []⟩
  let s1 := if q.Q2 then addComp s0 "Q2_appearance" Q2_appearance else s0
  let s2 := if q.Q3 then addComp s1 "Q3_appearance" Q3_appearance else s1
  match q.position.bind qualiPositionPoints with
  | some v => if v = 0 then s2 else addComp s2 "position" v
  | none => s2

/-- The DNF test on line 132 of routes/fantasy.js, verbatim:
`status === 'DNF' || status === 'Not Classified' ||
 (dnf && status !== 'Lapped') || status === 'Retired' ||
 status === 'Mechanical' || status === 'Accident'`. -/
def dnfCondition (r : RaceResult) : Bool :=
  r.status == "DNF" || r.status == "Not Classified" ||
    (r.dnf && !(r.status == "Lapped")) || r.status == "Retired" ||
    r.status == "Mechanical" || r.status == "Accident"

/-- calculateRacePoints from routes/fantasy.js.  The position lookup is
guarded by `!== undefined`, so the zero entries for positions 11..20 do
produce a breakdown key.  `ignorePosLost` is set by the DNF branch and
suppresses only the positions-lost branch. -/
def calculateRacePoints (r : RaceResult) (q : QualifyingResult) :
    ScoreResult :=
  let s0 : ScoreResult := ⟨0, []⟩
  let s1 := match r.position.bind racePositionPoints with
    | some v => addComp s0 "position" v
    | none => s0
  let s2 := if r.fastestLap then addComp s1 "fastestLap" raceFastestLapPts else s1
  let s3 := if r.driverOfTheDay then
      addComp s2 "driverOfTheDay" raceDriverOfTheDayPts
    else s2
  let ignorePosLost := dnfCondition r
  let s4 := if dnfCondition r then addComp s3 "dnf" raceDnfPts else s3
  let positionsGained := jsNum q.position - jsNum r.position
  let s5 :=
    if 0 < positionsGained then
      addComp s4 "positionsGained" (positionsGained * racePositionsGainedPts)
    else if positionsGained < 0 && !ignorePosLost then
      addComp s4 "positionsLost" (|positionsGained| * racePositionsLostPts)
    else s4
  let s6 := if r.overtakes ≠ 0 then
      addComp s5 "overtakes" (r.overtakes * raceOvertakesPts)
    else s5
  if r.status = "Disqualified" then
    addComp s6 "disqualified" raceDisqualifiedPts
  else s6

example :
    JsMap.get (calculateRacePoints { position := some 1 } { position := some 1 }).breakdown
      "position" = some 25 := by decide

example :
    (calculateRacePoints
      { position := some 1, fastestLap := true, driverOfTheDay := true,
        overtakes := 2 }
      { position := some 1 }).points = 47 := by decide

example :
    JsMap.get (calculateRacePoints { position := some 11 } { position := some 11 }).breakdown
      "position" = some 0 := by decide

example :
    (calculateQualifyingPoints { position := some 11 }).breakdown = [] := by decide

example :
    JsMap.get (calculateRacePoints
      { position := some 15, status := "DNF" } { position := some 3 }).breakdown
      "dnf" = some (-20) := by decide

example :
    JsMap.get (calculateRacePoints
      { position := some 15, status := "DNF" } { position := some 3 }).breakdown
      "positionsLost" = none := by decide

/-! Characterisation of the breakdown maps produced by the scoring
functions: each conditional `points += v; breakdown.key = v` step
appends a conditional singleton segment, and key lookups then reduce
segment by segment. -/

theorem breakdown_addIf (c : Prop) [Decidable c] (s : ScoreResult)
    (k : String) (v : Int) :
    (if c then addComp s k v else s).breakdown =
      s.breakdown ++ (if c then [(k, v)] else []) := by
  by_cases h : c <;> simp [h, addComp]

theorem breakdown_addPos (o : Option Int) (s : ScoreResult) :
    (match o with
     | some v => addComp s "position" v
     | none => s).breakdown =
      s.breakdown ++
        (match o with | some v => [("position", v)] | none => []) := by
  cases o <;> simp [addComp]

theorem breakdown_addDelta (a : Prop) [Decidable a] (b : Bool)
    (s : ScoreResult) (k1 k2 : String) (v1 v2 : Int) :
    (if a then addComp s k1 v1 else if b then addComp s k2 v2 else s).breakdown =
      s.breakdown ++
        (if a then [(k1, v1)] else if b then [(k2, v2)] else []) := by
  by_cases h : a
  · simp [h, addComp]
  · cases b <;> simp [h, addComp]

theorem get_segIf_ne (c : Prop) [Decidable c] (k1 k : String) (v : Int)
    (h : ¬(k1 = k)) :
    JsMap.get (if c then [(k1, v)] else []) k = none := by
  by_cases hc : c <;> simp [hc, JsMap.get, h]

theorem get_segIf_ne2 (c : Prop) [Decidable c] (k1 k : String) (v : Int)
    (h : ¬(k1 = k)) :
    JsMap.get (if c then [] else [(k1, v)]) k = none := by
  by_cases hc : c <;> simp [hc, JsMap.get, h]

theorem get_segIf_eq (c : Prop) [Decidable c] (k : String) (v : Int) :
    JsMap.get (if c then [(k, v)] else []) k =
      if c then some v else none := by
  by_cases hc : c <;> simp [hc, JsMap.get]

theorem get_segPos_ne (o : Option Int) (k : String)
    (h : ¬(("position" : String) = k)) :
    JsMap.get (match o with | some v => [(("position" : String), v)] | none => []) k =
      none := by
  cases o <;> simp [JsMap.get, h]

theorem get_segPos_eq (o : Option Int) :
    JsMap.get (match o with | some v => [(("position" : String), v)] | none => [])
      "position" = o := by
  cases o <;> simp [JsMap.get]

theorem get_segDelta_ne (a b : Prop) [Decidable a] [Decidable b]
    (k1 k2 k : String) (v1 v2 : Int) (h1 : ¬(k1 = k)) (h2 : ¬(k2 = k)) :
    JsMap.get (if a then [(k1, v1)] else if b then [(k2, v2)] else []) k =
      none := by
  by_cases ha : a
  · simp [ha, JsMap.get, h1]
  · by_cases hb : b <;> simp [ha, hb, JsMap.get, h2]

theorem get_segDelta_fst (a b : Prop) [Decidable a] [Decidable b]
    (k1 k2 : String) (v1 v2 : Int) (h : ¬(k2 = k1)) :
    JsMap.get (if a then [(k1, v1)] else if b then [(k2, v2)] else []) k1 =
      if a then some v1 else none := by
  by_cases ha : a
  · simp [ha, JsMap.get]
  · by_cases hb : b <;> simp [ha, hb, JsMap.get, h]

theorem get_segDelta_snd (a b : Prop) [Decidable a] [Decidable b]
    (k1 k2 : String) (v1 v2 : Int) (h : ¬(k1 = k2)) :
    JsMap.get (if a then [(k1, v1)] else if b then [(k2, v2)] else []) k2 =
      if a then none else if b then some v2 else none := by
  by_cases ha : a
  · simp [ha, JsMap.get, h]
  · by_cases hb : b <;> simp [ha, hb, JsMap.get]

theorem optMatch_id {α : Type} (o : Option α) :
    (match o with | some v => some v | none => none) = o := by
  cases o <;> rfl

/-- The race breakdown laid out as the concatenation of its seven
conditional segments, in source order. -/
theorem race_breakdown_eq (r : RaceResult) (q : QualifyingResult) :
    (calculateRacePoints r q).breakdown =
      (match r.position.bind racePositionPoints with
       | some v => [(("position" : String), v)]
       | none => []) ++
      ((if r.fastestLap then [("fastestLap", raceFastestLapPts)] else []) ++
       ((if r.driverOfTheDay then
           [("driverOfTheDay", raceDriverOfTheDayPts)] else []) ++
        ((if dnfCondition r then [("dnf", raceDnfPts)] else []) ++
         ((if 0 < jsNum q.position - jsNum r.position then
             [("positionsGained",
               (jsNum q.position - jsNum r.position) * racePositionsGainedPts)]
           else if (jsNum q.position - jsNum r.position < 0 &&
               !dnfCondition r) then
             [("positionsLost",
               |jsNum q.position - jsNum r.position| * racePositionsLostPts)]
           else []) ++
          ((if r.overtakes ≠ 0 then
              [("overtakes", r.overtakes * raceOvertakesPts)] else []) ++
           (if r.status = "Disqualified" then
              [("disqualified", raceDisqualifiedPts)] else [])))))) := by
  simp only [calculateRacePoints, breakdown_addIf, breakdown_addPos,
    breakdown_addDelta]
  simp [List.append_assoc]

theorem breakdown_addComp (s : ScoreResult) (k : String) (v : Int) :
    (addComp s k v).breakdown = s.breakdown ++ [(k, v)] := rfl

/-- The qualifying breakdown laid out as its three conditional
segments. -/
theorem quali_breakdown_eq (q : QualifyingResult) :
    (calculateQualifyingPoints q).breakdown =
      (if q.Q2 then [(("Q2_appearance" : String), Q2_appearance)] else []) ++
      ((if q.Q3 then [("Q3_appearance", Q3_appearance)] else []) ++
       (match q.position.bind qualiPositionPoints with
        | some v => if v = 0 then [] else [("position", v)]
        | none => [])) := by
  rcases ho : q.position.bind qualiPositionPoints with _ | v
  · simp only [calculateQualifyingPoints, ho, breakdown_addIf]
    simp
  · by_cases hv : v = 0
    · simp only [calculateQualifyingPoints, ho, hv, if_true,
        breakdown_addIf]
      simp
    · simp only [calculateQualifyingPoints, ho, hv, if_false,
        breakdown_addComp, breakdown_addIf]
      simp [List.append_assoc]

theorem get_race_position (r : RaceResult) (q : QualifyingResult) :
    JsMap.get (calculateRacePoints r q).breakdown "position" =
      r.position.bind racePositionPoints := by
  rw [race_breakdown_eq]
  simp [JsMap.get_append, get_segPos_eq, get_segIf_ne, get_segIf_ne2,
    get_segDelta_ne, optMatch_id]

theorem get_race_dnf (r : RaceResult) (q : QualifyingResult) :
    JsMap.get (calculateRacePoints r q).breakdown "dnf" =
      if dnfCondition r then some raceDnfPts else none := by
  rw [race_breakdown_eq]
  simp [JsMap.get_append, get_segPos_ne, get_segIf_ne, get_segIf_ne2,
    get_segIf_eq, get_segDelta_ne]
  by_cases h : dnfCondition r <;> simp [h]

theorem get_race_positionsGained (r : RaceResult) (q : QualifyingResult) :
    JsMap.get (calculateRacePoints r q).breakdown "positionsGained" =
      if 0 < jsNum q.position - jsNum r.position then
        some ((jsNum q.position - jsNum r.position) * racePositionsGainedPts)
      else none := by
  rw [race_breakdown_eq]
  simp [JsMap.get_append, get_segPos_ne, get_segIf_ne, get_segIf_ne2,
    get_segDelta_fst, optMatch_id]

theorem get_race_positionsLost (r : RaceResult) (q : QualifyingResult) :
    JsMap.get (calculateRacePoints r q).breakdown "positionsLost" =
      if jsNum q.position - jsNum r.position < 0 ∧ ¬(dnfCondition r = true) then
        some (|jsNum q.position - jsNum r.position| * racePositionsLostPts)
      else none := by
  rw [race_breakdown_eq]
  simp [JsMap.get_append, get_segPos_ne, get_segIf_ne, get_segIf_ne2,
    get_segDelta_snd, optMatch_id, sub_neg]
  by_cases h1 : jsNum r.position < jsNum q.position
  · have h2 : ¬(jsNum q.position < jsNum r.position) := by omega
    simp [h1, h2]
  · by_cases h2 : jsNum q.position < jsNum r.position
    · by_cases h3 : dnfCondition r <;> simp [h1, h2, h3]
    · simp [h1, h2]

theorem get_race_disqualified (r : RaceResult) (q : QualifyingResult) :
    JsMap.get (calculateRacePoints r q).breakdown "disqualified" =
      if r.status = "Disqualified" then some raceDisqualifiedPts
      else none := by
  rw [race_breakdown_eq]
  simp [JsMap.get_append, get_segPos_ne, get_segIf_ne, get_segIf_ne2,
    get_segIf_eq, get_segDelta_ne]

theorem get_quali_position (q : QualifyingResult) :
    JsMap.get (calculateQualifyingPoints q).breakdown "position" =
      match q.position.bind qualiPositionPoints with
      | some v => if v = 0 then none else some v
      | none => none := by
  rw [quali_breakdown_eq]
  rcases ho : q.position.bind qualiPositionPoints with _ | v
  · simp [JsMap.get_append, get_segIf_ne, JsMap.get]
  · by_cases hv : v = 0 <;>
      simp [JsMap.get_append, get_segIf_ne, JsMap.get, hv]

/-- The race position table for 1..10 exactly as the spec lists it
(for comparison with the embedded POINTS_SYSTEM table). -/
def specRacePositionPts : Int → Int
  | 1 => 25
  | 2 => 18
  | 3 => 15
  | 4 => 12
  | 5 => 10
  | 6 => 8
  | 7 => 6
  | 8 => 4
  | 9 => 2
  | 10 => 1
  | _ => 0

/-- The qualifying position table for 1..10 exactly as the spec lists
it. -/
def specQualiPositionPts : Int → Int
  | 1 => 10
  | 2 => 9
  | 3 => 8
  | 4 => 7
  | 5 => 6
  | 6 => 5
  | 7 => 4
  | 8 => 3
  | 9 => 2
  | 10 => 1
  | _ => 0

/-- C4: race scoring classifies a competitor as DNF exactly when status
is one of DNF, Not Classified, Retired, Mechanical, Accident, or the
explicit dnf flag is set and status is not Lapped; a DNF gets the fixed
-20 contribution under key `dnf`, the positionsLost branch is
suppressed, and the positionsGained branch is not suppressed: a DNF
competitor whose qualifying position minus race position is positive
still receives that many positionsGained points. -/
theorem claim_C4_dnf_rules (r : RaceResult) (q : QualifyingResult) :
    (JsMap.get (calculateRacePoints r q).breakdown "dnf" =
       if r.status = "DNF" ∨ r.status = "Not Classified" ∨
          r.status = "Retired" ∨ r.status = "Mechanical" ∨
          r.status = "Accident" ∨ (r.dnf = true ∧ ¬(r.status = "Lapped"))
       then some (-20) else none) ∧
    (dnfCondition r = true →
       JsMap.get (calculateRacePoints r q).breakdown "positionsLost" =
         none) ∧
    (∀ qp rp : Int, q.position = some qp → r.position = some rp →
       dnfCondition r = true → 0 < qp - rp →
       JsMap.get (calculateRacePoints r q).breakdown "positionsGained" =
         some (qp - rp)) := by
  have hiff : dnfCondition r = true ↔
      (r.status = "DNF" ∨ r.status = "Not Classified" ∨
       r.status = "Retired" ∨ r.status = "Mechanical" ∨
       r.status = "Accident" ∨ (r.dnf = true ∧ ¬(r.status = "Lapped"))) := by
    simp only [dnfCondition, Bool.or_eq_true, Bool.and_eq_true,
      Bool.not_eq_true', beq_iff_eq, beq_eq_false_iff_ne, ne_eq]
    tauto
  refine ⟨?_, ?_, ?_⟩
  · rw [get_race_dnf]
    by_cases h : dnfCondition r = true
    · simp [h, hiff.mp h, raceDnfPts]
    · have hnc := fun hc => h (hiff.mpr hc)
      rw [if_neg h, if_neg hnc]
  · intro h
    rw [get_race_positionsLost]
    simp [h]
  · intro qp rp hq hr hdnf hgt
    rw [get_race_positionsGained]
    have hlt : rp < qp := by omega
    simp [hq, hr, jsNum, racePositionsGainedPts, hlt]

/-- Witness for C4: a retired car that qualified tenth and is
classified fifteenth on countback still loses no positionsLost points,
while one that gained places keeps its positionsGained points. -/
theorem claim_C4_witness :
    dnfCondition { status := "Retired", position := some 5 } = true ∧
    JsMap.get (calculateRacePoints
        { status := "Retired", position := some 5 }
        { position := some 10 }).breakdown "positionsLost" = none ∧
    JsMap.get (calculateRacePoints
        { status := "Retired", position := some 5 }
        { position := some 10 }).breakdown "positionsGained" = some 5 :=
  ⟨by decide,
   (claim_C4_dnf_rules { status := "Retired", position := some 5 }
      { position := some 10 }).2.1 (by decide),
   (claim_C4_dnf_rules { status := "Retired", position := some 5 }
      { position := some 10 }).2.2 10 5 rfl rfl (by decide) (by decide)⟩

/-- C5 counterexample: scoring a race result with position 11 yields
race points 0 as claimed, but — contrary to the claim that no position
breakdown key is produced — the breakdown does carry a `position` key
with value 0, because POINTS_SYSTEM.race.positions has explicit zero
entries for positions 11..20 and the guard is `!== undefined`. -/
theorem claim_C5_counterexample :
    JsMap.get (calculateRacePoints { position := some 11 }
        { position := some 11 }).breakdown "position" = some 0 ∧
    (calculateRacePoints { position := some 11 }
        { position := some 11 }).points = 0 := by decide

/-- C5 amended: race positions 1..10 map exactly to the spec's race
table and qualifying positions 1..10 to the spec's qualifying table; a
race position of 11..20 contributes 0 points but DOES produce a
`position` breakdown key with value 0 (race points at position 11 are
still 0 overall); race positions outside 1..20 (or null) and
qualifying positions outside 1..10 (or null) produce no position key. -/
theorem claim_C5_amended (r : RaceResult) (q : QualifyingResult)
    (p : Int) :
    (r.position = some p → 1 ≤ p → p ≤ 10 →
       JsMap.get (calculateRacePoints r q).breakdown "position" =
         some (specRacePositionPts p)) ∧
    (r.position = some p → 11 ≤ p → p ≤ 20 →
       JsMap.get (calculateRacePoints r q).breakdown "position" =
         some 0) ∧
    (r.position = some p → p ≤ 0 ∨ 21 ≤ p →
       JsMap.get (calculateRacePoints r q).breakdown "position" = none) ∧
    (r.position = none →
       JsMap.get (calculateRacePoints r q).breakdown "position" = none) ∧
    (q.position = some p → 1 ≤ p → p ≤ 10 →
       JsMap.get (calculateQualifyingPoints q).breakdown "position" =
         some (specQualiPositionPts p)) ∧
    (q.position = some p → p ≤ 0 ∨ 11 ≤ p →
       JsMap.get (calculateQualifyingPoints q).breakdown "position" =
         none) ∧
    (q.position = none →
       JsMap.get (calculateQualifyingPoints q).breakdown "position" =
         none) := by
  refine ⟨?_, ?_, ?_, ?_, ?_, ?_, ?_⟩
  · intro hp h1 h2
    rw [get_race_position, hp, Option.some_bind]
    interval_cases p <;> rfl
  · intro hp h1 h2
    rw [get_race_position, hp, Option.some_bind]
    interval_cases p <;> rfl
  · intro hp hout
    rw [get_race_position, hp, Option.some_bind]
    rw [racePositionPoints.eq_def]
    rcases hout with h | h <;> split <;> first | rfl | omega
  · intro hp
    rw [get_race_position, hp, Option.none_bind]
  · intro hp h1 h2
    rw [get_quali_position, hp, Option.some_bind]
    interval_cases p <;> rfl
  · intro hp hout
    have hnone : qualiPositionPoints p = none := by
      rw [qualiPositionPoints.eq_def]
      rcases hout with h | h <;> split <;> first | rfl | omega
    rw [get_quali_position, hp, Option.some_bind, hnone]
  · intro hp
    rw [get_quali_position, hp, Option.none_bind]

/-- Witness for C5: concrete lookups at race positions 3, 12 and 30 and
qualifying positions 4 and 11. -/
theorem claim_C5_witness :
    JsMap.get (calculateRacePoints { position := some 3 }
        { position := some 3 }).breakdown "position" =
      some (specRacePositionPts 3) ∧
    JsMap.get (calculateRacePoints { position := some 12 }
        { position := some 12 }).breakdown "position" = some 0 ∧
    JsMap.get (calculateRacePoints { position := some 30 }
        { position := some 30 }).breakdown "position" = none ∧
    JsMap.get (calculateQualifyingPoints { position := some 4 }).breakdown
      "position" = some (specQualiPositionPts 4) ∧
    JsMap.get (calculateQualifyingPoints { position := some 11 }).breakdown
      "position" = none :=
  ⟨(claim_C5_amended { position := some 3 } { position := some 3 } 3).1
      rfl (by decide) (by decide),
   (claim_C5_amended { position := some 12 } { position := some 12 } 12).2.1
      rfl (by decide) (by decide),
   (claim_C5_amended { position := some 30 } { position := some 30 } 30).2.2.1
      rfl (Or.inr (by decide)),
   (claim_C5_amended { position := some 4 } { position := some 4 } 4).2.2.2.2.1
      rfl (by decide) (by decide),
   (claim_C5_amended { position := some 11 } { position := some 11 } 11).2.2.2.2.2.1
      rfl (Or.inr (by decide))⟩

/-- C6: the disqualification check is independent of the DNF
determination: key `disqualified` carries the fixed -20 exactly when
status is Disqualified, and for a Disqualified status with the explicit
dnf flag set both the dnf -20 and the disqualified -20 are applied. -/
theorem claim_C6_disqualified_stacks (r : RaceResult)
    (q : QualifyingResult) :
    (JsMap.get (calculateRacePoints r q).breakdown "disqualified" =
       if r.status = "Disqualified" then some (-20) else none) ∧
    (r.status = "Disqualified" → r.dnf = true →
       JsMap.get (calculateRacePoints r q).breakdown "dnf" = some (-20) ∧
       JsMap.get (calculateRacePoints r q).breakdown "disqualified" =
         some (-20)) := by
  constructor
  · rw [get_race_disqualified]
    simp [raceDisqualifiedPts]
  · intro hs hd
    have hdnf : dnfCondition r = true := by
      simp [dnfCondition, hs, hd]
    constructor
    · rw [get_race_dnf]
      simp [hdnf, raceDnfPts]
    · rw [get_race_disqualified]
      simp [hs, raceDisqualifiedPts]

/-- Witness for C6: a disqualified car with the explicit dnf flag set
receives both -20 penalties. -/
theorem claim_C6_witness :
    ((⟨"", some 8, "Disqualified", true, false, false, 0⟩ :
        RaceResult).status = "Disqualified") ∧
    JsMap.get (calculateRacePoints
        ⟨"", some 8, "Disqualified", true, false, false, 0⟩
        { position := some 8 }).breakdown "dnf" = some (-20) ∧
    JsMap.get (calculateRacePoints
        ⟨"", some 8, "Disqualified", true, false, false, 0⟩
        { position := some 8 }).breakdown "disqualified" = some (-20) :=
  ⟨rfl,
   ((claim_C6_disqualified_stacks
      ⟨"", some 8, "Disqualified", true, false, false, 0⟩
      { position := some 8 }).2 rfl rfl).1,
   ((claim_C6_disqualified_stacks
      ⟨"", some 8, "Disqualified", true, false, false, 0⟩
      { position := some 8 }).2 rfl rfl).2⟩

end Fantasy

namespace RQ

/-- RequestQueue's constructor default
`Math.max(1, Math.floor(os.cpus().length * 0.75))`. -/
def defaultMaxConcurrent (cpus : Nat) : Nat := Nat.max 1 (cpus * 3 / 4)

/-- The bookkeeping state of utils/queue.js's RequestQueue.

`active` is the size of the `active` set of task symbols, `waiting` is
the `queue` array holding the tasks that could not start immediately.
Tasks parked in `waiting` are labelled with consecutive ids in
submission order (`nextId` is the next label); `started` records, in
order, the ids of parked tasks that were later started by
`processQueue`.  The labels are a proof artefact: the source stores the
task closures themselves, and ids here stand for their identities. -/
structure QState where
  maxConcurrent : Nat
  active : Nat
  waiting : List Nat
  nextId : Nat
  started : List Nat
  deriving Repr, DecidableEq

/-- A fresh RequestQueue. -/
def qInit (maxConcurrent : Nat) : QState :=
  { maxConcurrent := maxConcurrent, active := 0, waiting := [],
    nextId := 0, started := [] }

/-- The two externally visible transitions: a call to `add(task)` and
the settlement (fulfilment or rejection) of one running task, which in
the source runs `execute`'s `finally` block. -/
inductive QEvent where
  | submit
  | complete
  deriving Repr, DecidableEq

/-- `processQueue()`: if the queue is non-empty and capacity allows,
shift the head of the queue and begin executing it (`execute` adds the
task to the active set). -/
def processQueue (s : QState) : QState :=
  match s.waiting with
  | [] => s
  | h :: t =>
      if s.active < s.maxConcurrent then
        { s with active := s.active + 1, waiting := t,
                 started := s.started ++ [h] }
      else s

/-- One transition of the queue.

`submit`: `add(task)` either begins execution immediately
(`active.size < maxConcurrent`) or pushes the task onto the queue.
`complete`: a running task settles; `execute`'s `finally` block removes
it from the active set (for success and failure alike) and calls
`processQueue()`.  A completion can only happen while a task runs, so
it is a no-op when nothing is active. -/
def qStep (s : QState) : QEvent → QState
  | .submit =>
      if s.active < s.maxConcurrent then { s with active := s.active + 1 }
      else { s with waiting := s.waiting ++ [s.nextId],
                    nextId := s.nextId + 1 }
  | .complete =>
      if s.active = 0 then s
      else processQueue { s with active := s.active - 1 }

/-- Run a sequence of submissions and completions. -/
def qRun (s : QState) (evs : List QEvent) : QState :=
  evs.foldl qStep s

/-- The reachable-state invariant shared by the queue claims. -/
def QInv (s : QState) : Prop :=
  s.active ≤ s.maxConcurrent ∧ s.started ++ s.waiting = List.range s.nextId

theorem qInv_init (m : Nat) : QInv (qInit m) := by
  constructor <;> simp [qInit]

theorem qInv_step (s : QState) (e : QEvent) (h : QInv s) :
    QInv (qStep s e) := by
  obtain ⟨h1, h2⟩ := h
  cases e with
  | submit =>
      by_cases hc : s.active < s.maxConcurrent
      · exact ⟨by simp [qStep, hc]; omega, by simpa [qStep, hc] using h2⟩
      · refine ⟨by simp [qStep, hc, h1], ?_⟩
        simp only [qStep, hc, if_false]
        rw [List.range_succ, ← h2, List.append_assoc]
  | complete =>
      by_cases h0 : s.active = 0
      · have he : qStep s .complete = s := by simp [qStep, h0]
        rw [he]; exact ⟨h1, h2⟩
      · simp only [qStep, h0, if_false]
        cases hw : s.waiting with
        | nil =>
            refine ⟨by simp [processQueue, hw]; omega, ?_⟩
            simpa [processQueue, hw] using h2
        | cons hd tl =>
            by_cases hc : s.active - 1 < s.maxConcurrent
            · refine ⟨by simp [processQueue, hw, hc]; omega, ?_⟩
              simp only [processQueue, hw, hc, if_true]
              rw [← h2, hw, List.append_assoc]
              simp
            · exact ⟨by simp [processQueue, hw, hc]; omega,
                by simpa [processQueue, hw, hc] using h2⟩

theorem qInv_run (s : QState) (evs : List QEvent) (h : QInv s) :
    QInv (qRun s evs) := by
  induction evs generalizing s with
  | nil => simpa [qRun]
  | cons e rest ih =>
      have := qInv_step s e h
      simpa [qRun, List.foldl_cons] using ih (qStep s e) this

theorem qRun_maxConcurrent (s : QState) (evs : List QEvent) :
    (qRun s evs).maxConcurrent = s.maxConcurrent := by
  induction evs generalizing s with
  | nil => simp [qRun]
  | cons e rest ih =>
      have hstep : (qStep s e).maxConcurrent = s.maxConcurrent := by
        cases e with
        | submit => by_cases hc : s.active < s.maxConcurrent <;> simp [qStep, hc]
        | complete =>
            by_cases h0 : s.active = 0
            · simp [qStep, h0]
            · simp only [qStep, h0, if_false]
              unfold processQueue
              cases hw : s.waiting with
              | nil => simp
              | cons hd tl =>
                  by_cases hc : s.active - 1 < s.maxConcurrent <;> simp [hc]
      rw [qRun, List.foldl_cons, ← qRun, ih, hstep]

end RQ

namespace SimpleCache

/-- utils/cache.js: `const CACHE_TTL = 3600` (one hour, in seconds). -/
def CACHE_TTL : Nat := 3600

/-- One cache entry `{ data, timestamp }`. -/
structure Entry (V : Type) where
  data : V
  timestamp : Nat
  deriving Repr, DecidableEq

/-- getCachedData from utils/cache.js.  The producer `fetchFn` is
modelled by its outcome `fetchResult`; the result is the pair of the
call's outcome and the cache map after the call.  A fresh entry is
returned without consulting the producer; otherwise the producer runs
first — a rejection propagates before `cache.set` is reached, so the
map is returned unchanged — and only a fulfilled producer stores
`{ data, timestamp: now }`.  (The two miss arms below are the single
fall-through path of the source, reached when there is no entry or the
entry is stale.) -/
def getCachedData {V E : Type} (cache : List (String × Entry V))
    (now : Nat) (key : String) (fetchResult : Except E V) :
    Except E V × List (String × Entry V) :=
  match JsMap.get cache key with
  | some cached =>
      if now - cached.timestamp < CACHE_TTL * 1000 then
        (.ok cached.data, cache)
      else
        match fetchResult with
        | .error e => (.error e, cache)
        | .ok v => (.ok v, JsMap.set cache key ⟨v, now⟩)
  | none =>
      match fetchResult with
      | .error e => (.error e, cache)
      | .ok v => (.ok v, JsMap.set cache key ⟨v, now⟩)

/-- C8: when the producer for a key fails, the cache is left entirely
unchanged and the failure propagates to the caller; and, the state
being unchanged, the next identical request reaches the producer afresh
and returns its new outcome instead of any cached failure (stated both
for the unchanged state and for the literal composition of the two
calls). -/
theorem claim_C8_failure_not_cached {V E : Type}
    (cache : List (String × Entry V)) (now : Nat) (key : String)
    (e : E) (v : V)
    (hmiss : ∀ cached, JsMap.get cache key = some cached →
      CACHE_TTL * 1000 ≤ now - cached.timestamp) :
    getCachedData cache now key (.error e) = (.error e, cache) ∧
    (getCachedData cache now key ((.ok v : Except E V))).1 = .ok v ∧
    (getCachedData (getCachedData cache now key (.error e)).2 now key
        ((.ok v : Except E V))).1 = .ok v := by
  rcases hget : JsMap.get cache key with _ | c
  · simp [getCachedData, hget]
  · have hstale := hmiss c hget
    have : ¬(now - c.timestamp < CACHE_TTL * 1000) := by omega
    simp [getCachedData, hget, this]

/-- Witness for C8: a one-entry cache whose entry for the key is stale. -/
theorem claim_C8_witness :
    (∀ cached : Entry Nat,
       JsMap.get [("k", (⟨7, 0⟩ : Entry Nat))] "k" = some cached →
       CACHE_TTL * 1000 ≤ 99999999 - cached.timestamp) ∧
    (getCachedData [("k", (⟨7, 0⟩ : Entry Nat))] 99999999 "k"
        (.error "boom") = (.error "boom", [("k", ⟨7, 0⟩)]) ∧
     (getCachedData [("k", (⟨7, 0⟩ : Entry Nat))] 99999999 "k"
        ((.ok 42 : Except String Nat))).1 = .ok 42 ∧
     (getCachedData (getCachedData [("k", (⟨7, 0⟩ : Entry Nat))] 99999999
         "k" (.error "boom")).2 99999999 "k"
        ((.ok 42 : Except String Nat))).1 = .ok 42) :=
  ⟨by intro c hc; simp [JsMap.get] at hc; rw [← hc]; decide,
   claim_C8_failure_not_cached [("k", ⟨7, 0⟩)] 99999999 "k" "boom" 42
     (by intro c hc; simp [JsMap.get] at hc; rw [← hc]; decide)⟩

end SimpleCache

namespace JsMap

theorem get_eq_none_iff {α : Type} (l : List (String × α)) (k : String) :
    get l k = none ↔ k ∉ l.map Prod.fst := by
  induction l with
  | nil => simp [get]
  | cons p rest ih =>
      obtain ⟨k1, v⟩ := p
      by_cases h : k1 = k
      · subst h
        simp [get]
      · rw [get, if_neg h, ih]
        simp only [List.map_cons, List.mem_cons]
        constructor
        · intro hn hk
          rcases hk with hk | hk
          · exact h hk.symm
          · exact hn hk
        · intro hn hk
          exact hn (Or.inr hk)

theorem get_set_self {α : Type} (l : List (String × α)) (k : String)
    (v : α) : get (set l k v) k = some v := by
  induction l with
  | nil => simp [get, set]
  | cons p rest ih =>
      obtain ⟨k1, v1⟩ := p
      by_cases h : k1 = k
      · subst h
        rw [set, if_pos rfl, get, if_pos rfl]
      · rw [set, if_neg h, get, if_neg h, ih]

theorem get_set_ne {α : Type} (l : List (String × α)) (k k2 : String)
    (v : α) (h : ¬(k2 = k)) : get (set l k v) k2 = get l k2 := by
  induction l with
  | nil =>
      show (if k = k2 then some v else none) = none
      rw [if_neg (fun hk => h hk.symm)]
  | cons p rest ih =>
      obtain ⟨k1, v1⟩ := p
      by_cases h1 : k1 = k
      · subst h1
        rw [set, if_pos rfl, get, if_neg (fun hk => h hk.symm), get,
          if_neg (fun hk => h hk.symm)]
      · rw [set, if_neg h1, get, get]
        by_cases h2 : k1 = k2
        · rw [if_pos h2, if_pos h2]
        · rw [if_neg h2, if_neg h2, ih]

theorem get_del_ne {α : Type} (l : List (String × α)) (k k2 : String)
    (h : ¬(k2 = k)) : get (del l k) k2 = get l k2 := by
  induction l with
  | nil => rw [del]
  | cons p rest ih =>
      obtain ⟨k1, v1⟩ := p
      by_cases h1 : k1 = k
      · subst h1
        rw [del, if_pos rfl, get, if_neg (fun hk => h hk.symm)]
      · rw [del, if_neg h1, get, get]
        by_cases h2 : k1 = k2
        · rw [if_pos h2, if_pos h2]
        · rw [if_neg h2, if_neg h2, ih]

theorem get_del_self_of_nodup {α : Type} (l : List (String × α))
    (k : String) (hnd : (l.map Prod.fst).Nodup) :
    get (del l k) k = none := by
  induction l with
  | nil => simp [del, get]
  | cons p rest ih =>
      obtain ⟨k1, v1⟩ := p
      simp only [List.map_cons, List.nodup_cons] at hnd
      by_cases h1 : k1 = k
      · subst h1
        rw [del, if_pos rfl, get_eq_none_iff]
        exact hnd.1
      · rw [del, if_neg h1, get, if_neg h1]
        exact ih hnd.2

theorem length_del_of_mem {α : Type} (l : List (String × α))
    (k : String) (hmem : k ∈ l.map Prod.fst) :
    (del l k).length = l.length - 1 := by
  induction l with
  | nil => simp at hmem
  | cons p rest ih =>
      obtain ⟨k1, v1⟩ := p
      by_cases h1 : k1 = k
      · simp [del, h1]
      · simp only [List.map_cons, List.mem_cons] at hmem
        rcases hmem with hmem | hmem
        · exact absurd hmem.symm h1
        · have hlen : 1 ≤ rest.length := by
            rcases rest with _ | ⟨a, b⟩
            · simp at hmem
            · simp
          rw [del, if_neg h1]
          simp only [List.length_cons, ih hmem]
          omega

theorem length_set_of_not_mem {α : Type} (l : List (String × α))
    (k : String) (v : α) (h : k ∉ l.map Prod.fst) :
    (set l k v).length = l.length + 1 := by
  induction l with
  | nil => simp [set]
  | cons p rest ih =>
      obtain ⟨k1, v1⟩ := p
      simp only [List.map_cons, List.mem_cons] at h
      push_neg at h
      rw [set, if_neg (fun hk : k1 = k => h.1 hk.symm)]
      simp [ih h.2]

theorem map_fst_del_subset {α : Type} (l : List (String × α))
    (k : String) : (del l k).map Prod.fst ⊆ l.map Prod.fst := by
  induction l with
  | nil => simp [del]
  | cons p rest ih =>
      obtain ⟨k1, v1⟩ := p
      by_cases h1 : k1 = k
      · simp only [del, if_pos h1, List.map_cons]
        exact fun x hx => List.mem_cons_of_mem _ hx
      · simp only [del, if_neg h1, List.map_cons]
        intro x hx
        rcases List.mem_cons.mp hx with hx | hx
        · exact hx ▸ List.mem_cons_self _ _
        · exact List.mem_cons_of_mem _ (ih hx)

end JsMap

namespace BoundedCache

/-- CACHE_TTL.SHORT (seconds). -/
def CACHE_TTL_SHORT : Nat := 300
/-- CACHE_TTL.MEDIUM (seconds), the default ttl argument. -/
def CACHE_TTL_MEDIUM : Nat := 3600
/-- CACHE_TTL.LONG (seconds). -/
def CACHE_TTL_LONG : Nat := 86400
/-- MAX_CACHE_SIZE: maximum number of items in the cache. -/
def MAX_CACHE_SIZE : Nat := 1000

/-- One cache entry `{ data, timestamp }`. -/
structure Entry (V : Type) where
  data : V
  timestamp : Nat
  deriving Repr, DecidableEq

/-- `[...cache.entries()].sort((a, b) => a.timestamp - b.timestamp)[0]`:
the head of a stable sort by timestamp is the earliest-inserted entry
among those with the minimal timestamp, computed here by a fold that
replaces the current candidate only on a strictly smaller timestamp. -/
def oldestEntry {V : Type} :
    List (String × Entry V) → Option (String × Entry V)
  | [] => none
  | p :: rest =>
      match oldestEntry rest with
      | none => some p
      | some q => some (if q.2.timestamp < p.2.timestamp then q else p)

theorem oldestEntry_eq_none {V : Type} (c : List (String × Entry V)) :
    oldestEntry c = none ↔ c = [] := by
  cases c with
  | nil => simp [oldestEntry]
  | cons hd tl =>
      rw [oldestEntry]
      rcases oldestEntry tl with _ | q <;> simp

theorem oldestEntry_mem {V : Type} {c : List (String × Entry V)}
    {p : String × Entry V} (h : oldestEntry c = some p) : p ∈ c := by
  induction c with
  | nil => simp [oldestEntry] at h
  | cons hd tl ih =>
      rw [oldestEntry] at h
      rcases ho : oldestEntry tl with _ | q <;> rw [ho] at h <;> simp at h
      · simp [← h]
      · by_cases hc : q.2.timestamp < hd.2.timestamp
        · rw [if_pos hc] at h
          subst h
          exact List.mem_cons_of_mem hd (ih ho)
        · rw [if_neg hc] at h
          simp [← h]

theorem oldestEntry_min {V : Type} :
    ∀ (c : List (String × Entry V)) (p : String × Entry V),
      oldestEntry c = some p →
      ∀ q ∈ c, p.2.timestamp ≤ q.2.timestamp := by
  intro c
  induction c with
  | nil => intro p h; simp [oldestEntry] at h
  | cons hd tl ih =>
      intro p h
      rw [oldestEntry] at h
      rcases ho : oldestEntry tl with _ | q <;> rw [ho] at h <;> simp at h
      · have htl : tl = [] := (oldestEntry_eq_none tl).mp ho
        subst htl
        intro r hr
        simp at hr
        rw [hr, ← h]
      · intro r hr
        rcases List.mem_cons.mp hr with hr | hr
        · by_cases hc : q.2.timestamp < hd.2.timestamp
          · rw [if_pos hc] at h
            rw [hr, ← h]
            omega
          · rw [if_neg hc] at h
            rw [hr, ← h]
        · have hq := ih q ho r hr
          by_cases hc : q.2.timestamp < hd.2.timestamp
          · rw [if_pos hc] at h
            rw [← h]
            omega
          · rw [if_neg hc] at h
            rw [← h]
            omega

theorem oldestEntry_isSome {V : Type} (c : List (String × Entry V))
    (h : c ≠ []) : (oldestEntry c).isSome := by
  cases c with
  | nil => simp at h
  | cons hd tl =>
      rw [oldestEntry]
      rcases oldestEntry tl with _ | q <;> simp

/-- getCachedData's miss path: run the producer; on success, first make
room if the cache has reached the size bound by deleting the oldest
entry, then store the fresh entry. -/
def computeAndStore {V E : Type} (maxSize : Nat)
    (cache : List (String × Entry V)) (now : Nat) (key : String)
    (fetchResult : Except E V) :
    Except E V × List (String × Entry V) :=
  match fetchResult with
  | .error e => (.error e, cache)
  | .ok v =>
      let cache1 :=
        if maxSize ≤ cache.length then
          match oldestEntry cache with
          | some p => JsMap.del cache p.1
          | none => cache
        else cache
      (.ok v, JsMap.set cache1 key ⟨v, now⟩)

/-- getCachedData of the bounded cache module (the variant with TTL
classes and MAX_CACHE_SIZE).  `maxSize` stands for the module constant
MAX_CACHE_SIZE, kept as a parameter so the size bound can be
instantiated; `ttl` is the per-call TTL argument (CACHE_TTL.MEDIUM by
default at the call sites). -/
def getCachedDataAt {V E : Type} (maxSize : Nat)
    (cache : List (String × Entry V)) (now : Nat) (key : String)
    (ttl : Nat) (fetchResult : Except E V) :
    Except E V × List (String × Entry V) :=
  match JsMap.get cache key with
  | some cached =>
      if now - cached.timestamp < ttl * 1000 then (.ok cached.data, cache)
      else computeAndStore maxSize cache now key fetchResult
  | none => computeAndStore maxSize cache now key fetchResult

/-- The module-level getCachedData, at the configured MAX_CACHE_SIZE. -/
def getCachedData {V E : Type} :
    List (String × Entry V) → Nat → String → Nat → Except E V →
      Except E V × List (String × Entry V) :=
  getCachedDataAt MAX_CACHE_SIZE

/-- C7: when a getOrCompute insertion would push the entry count past
the configured maximum capacity, the cache first evicts exactly one
entry — the earliest-inserted one among those with the smallest
storedAt timestamp (oldest-inserted, not least-recently-used): after a
successful producer run for a fresh key on a cache at capacity, the
evicted key is no longer retrievable, the fresh key and every other
existing key are, and the entry count is unchanged (one out, one in). -/
theorem claim_C7_capacity_evicts_oldest {V E : Type} (maxSize : Nat)
    (cache : List (String × Entry V)) (now : Nat) (key : String)
    (ttl : Nat) (v : V)
    (hnodup : (cache.map Prod.fst).Nodup)
    (hnew : JsMap.get cache key = none)
    (hfull : maxSize ≤ cache.length)
    (hpos : 1 ≤ maxSize) :
    ∃ op : String × Entry V,
      oldestEntry cache = some op ∧
      (∀ q ∈ cache, op.2.timestamp ≤ q.2.timestamp) ∧
      (getCachedDataAt maxSize cache now key ttl
          ((.ok v : Except E V))).1 = .ok v ∧
      JsMap.get (getCachedDataAt maxSize cache now key ttl
          ((.ok v : Except E V))).2 op.1 = none ∧
      JsMap.get (getCachedDataAt maxSize cache now key ttl
          ((.ok v : Except E V))).2 key = some ⟨v, now⟩ ∧
      (∀ k2, ¬(k2 = op.1) → ¬(k2 = key) →
        JsMap.get (getCachedDataAt maxSize cache now key ttl
          ((.ok v : Except E V))).2 k2 = JsMap.get cache k2) ∧
      (getCachedDataAt maxSize cache now key ttl
          ((.ok v : Except E V))).2.length = cache.length := by
  have hne : cache ≠ [] := by
    intro hc
    rw [hc] at hfull
    simp at hfull
    omega
  obtain ⟨op, hop⟩ := Option.isSome_iff_exists.mp (oldestEntry_isSome cache hne)
  have hkeynot : key ∉ cache.map Prod.fst :=
    (JsMap.get_eq_none_iff cache key).mp hnew
  have hopmem : op ∈ cache := oldestEntry_mem hop
  have hopkey : op.1 ∈ cache.map Prod.fst :=
    List.mem_map_of_mem Prod.fst hopmem
  have hopne : ¬(op.1 = key) := fun hk => hkeynot (hk ▸ hopkey)
  have hkeyne : ¬(key = op.1) := fun hk => hopne hk.symm
  have hres : (getCachedDataAt maxSize cache now key ttl
      ((.ok v : Except E V))).2 =
      JsMap.set (JsMap.del cache op.1) key ⟨v, now⟩ := by
    simp [getCachedDataAt, hnew, computeAndStore, if_pos hfull, hop]
  have hres1 : (getCachedDataAt maxSize cache now key ttl
      ((.ok v : Except E V))).1 = .ok v := by
    simp [getCachedDataAt, hnew, computeAndStore]
  refine ⟨op, hop, oldestEntry_min cache op hop, hres1, ?_, ?_, ?_, ?_⟩
  · rw [hres, JsMap.get_set_ne _ _ _ _ hopne,
      JsMap.get_del_self_of_nodup _ _ hnodup]
  · rw [hres, JsMap.get_set_self]
  · intro k2 hk2op hk2key
    rw [hres, JsMap.get_set_ne _ _ _ _ hk2key, JsMap.get_del_ne _ _ _ hk2op]
  · have hkeynot1 : key ∉ (JsMap.del cache op.1).map Prod.fst :=
      fun hmem => hkeynot (JsMap.map_fst_del_subset cache op.1 hmem)
    rw [hres, JsMap.length_set_of_not_mem _ _ _ hkeynot1,
      JsMap.length_del_of_mem _ _ hopkey]
    omega

/-- Witness for C7: a two-entry cache at capacity 2; inserting a third
key evicts the entry with the smaller storedAt. -/
theorem claim_C7_witness :
    (([("a", (⟨10, 5⟩ : Entry Nat)), ("b", ⟨20, 1⟩)].map
          Prod.fst).Nodup ∧
      JsMap.get [("a", (⟨10, 5⟩ : Entry Nat)), ("b", ⟨20, 1⟩)] "c" = none ∧
      2 ≤ ([("a", (⟨10, 5⟩ : Entry Nat)), ("b", ⟨20, 1⟩)]).length ∧
      1 ≤ 2) ∧
     ∃ op : String × Entry Nat,
      oldestEntry [("a", (⟨10, 5⟩ : Entry Nat)), ("b", ⟨20, 1⟩)] = some op ∧
      (∀ q ∈ [("a", (⟨10, 5⟩ : Entry Nat)), ("b", ⟨20, 1⟩)],
        op.2.timestamp ≤ q.2.timestamp) ∧
      (getCachedDataAt 2 [("a", (⟨10, 5⟩ : Entry Nat)), ("b", ⟨20, 1⟩)]
          100 "c" 3600 ((.ok 33 : Except String Nat))).1 = .ok 33 ∧
      JsMap.get (getCachedDataAt 2
          [("a", (⟨10, 5⟩ : Entry Nat)), ("b", ⟨20, 1⟩)]
          100 "c" 3600 ((.ok 33 : Except String Nat))).2 op.1 = none ∧
      JsMap.get (getCachedDataAt 2
          [("a", (⟨10, 5⟩ : Entry Nat)), ("b", ⟨20, 1⟩)]
          100 "c" 3600 ((.ok 33 : Except String Nat))).2 "c" =
        some ⟨33, 100⟩ ∧
      (∀ k2, ¬(k2 = op.1) → ¬(k2 = "c") →
        JsMap.get (getCachedDataAt 2
          [("a", (⟨10, 5⟩ : Entry Nat)), ("b", ⟨20, 1⟩)]
          100 "c" 3600 ((.ok 33 : Except String Nat))).2 k2 =
        JsMap.get [("a", (⟨10, 5⟩ : Entry Nat)), ("b", ⟨20, 1⟩)] k2) ∧
      (getCachedDataAt 2 [("a", (⟨10, 5⟩ : Entry Nat)), ("b", ⟨20, 1⟩)]
          100 "c" 3600 ((.ok 33 : Except String Nat))).2.length =
        ([("a", (⟨10, 5⟩ : Entry Nat)), ("b", ⟨20, 1⟩)]).length :=
  ⟨⟨by decide, by decide, by decide, by decide⟩,
   claim_C7_capacity_evicts_oldest 2
     [("a", ⟨10, 5⟩), ("b", ⟨20, 1⟩)] 100 "c" 3600 33
     (by decide) (by decide) (by decide) (by decide)⟩

end BoundedCache

namespace PyAdapter

/-- MEMORY_ERROR_MESSAGES.QUEUE_TIMEOUT from utils/pythonQueue.js. -/
def QUEUE_TIMEOUT_MSG : String := "Request queue timeout"

/-- The fixed rejection message used when stdout fails to parse. -/
def INVALID_JSON_MSG : String := "Invalid JSON from Python script"

/-- QUEUE_TIMEOUT: 10 minutes, in milliseconds. -/
def QUEUE_TIMEOUT_MS : Nat := 600000

/-- Memory diagnostics `{current, peak}` optionally carried by the
structured documents; logged and stripped, never returned. -/
structure MemStats where
  current : Int
  peak : Int
  deriving Repr, DecidableEq

/-- A structured error document parsed from stderr:
`{error?, memory_stats?}`. -/
structure ErrDoc where
  error : Option String := none
  memory_stats : Option MemStats := none
  deriving Repr, DecidableEq

/-- A structured stdout document: the optional memory_stats diagnostics
plus the payload proper (opaque here). -/
structure OutDoc where
  memory_stats : Option MemStats := none
  payload : String := ""
  deriving Repr, DecidableEq

/-- `delete jsonData.memory_stats` before resolving. -/
def stripMemStats (d : OutDoc) : OutDoc := { d with memory_stats := none }

/-- How the task's promise settles. -/
inductive Settlement where
  | resolved (doc : OutDoc)
  | rejected (message : String)
  deriving Repr, DecidableEq

/-- `errorData.error || error`: JS falls back to the raw stderr text
when the parsed document's error field is absent or an empty string
(both falsy). -/
def jsErrorOr (field : Option String) (raw : String) : String :=
  match field with
  | some s => if s = "" then raw else s
  | none => raw

/-- The close handler of runPythonScriptQueued: classify the exit code
together with the buffered stdout (`data`) and stderr (`error`).
`parseErr` and `parseOut` stand for JSON.parse applied to stderr and
stdout (none = the parse throws).  Note the error arm is guarded by
`code !== 0 && error`, so a non-zero exit with an EMPTY stderr falls
through to the stdout arm. -/
def classify (parseErr : String → Option ErrDoc)
    (parseOut : String → Option OutDoc) (code : Int)
    (data error : String) : Settlement :=
  if code ≠ 0 ∧ error ≠ "" then
    match parseErr error with
    | some errorData => .rejected (jsErrorOr errorData.error error)
    | none => .rejected error
  else
    match parseOut data with
    | some jsonData => .resolved (stripMemStats jsonData)
    | none => .rejected INVALID_JSON_MSG

/-- The events the task's promise executor observes, in event-loop
order: stdout/stderr chunks, the wall-clock timer firing, and process
close. -/
inductive PyEvent where
  | stdoutData (chunk : String)
  | stderrData (chunk : String)
  | timerFires
  | close (code : Int)
  deriving Repr, DecidableEq

/-- `true` for the stream-chunk events. -/
def isChunk : PyEvent → Bool
  | .stdoutData _ => true
  | .stderrData _ => true
  | _ => false

/-- The task's mutable state: the two accumulating buffers, how the
promise has settled (if at all), whether proc.kill() ran, and whether
clearTimeout ran. -/
structure TaskState where
  data : String := ""
  error : String := ""
  settled : Option Settlement := none
  killed : Bool := false
  timerCleared : Bool := false
  deriving Repr, DecidableEq

/-- Promise semantics: the first resolve/reject wins, later settlements
are no-ops. -/
def settleOnce (s : Option Settlement) (t : Settlement) :
    Option Settlement :=
  match s with
  | some old => some old
  | none => some t

/-- One event of the task's life: chunks append to the buffers; the
timer (unless already cleared) kills the process and rejects with the
QUEUE_TIMEOUT message; close clears the timer and settles with the
classification of the buffered output. -/
def pyStep (parseErr : String → Option ErrDoc)
    (parseOut : String → Option OutDoc) (s : TaskState) :
    PyEvent → TaskState
  | .stdoutData c => { s with data := s.data ++ c }
  | .stderrData c => { s with error := s.error ++ c }
  | .timerFires =>
      if s.timerCleared then s
      else { s with killed := true,
                    settled := settleOnce s.settled
                      (.rejected QUEUE_TIMEOUT_MSG) }
  | .close code =>
      { s with timerCleared := true,
               settled := settleOnce s.settled
                 (classify parseErr parseOut code s.data s.error) }

/-- Run the task over a sequence of events. -/
def pyRun (parseErr : String → Option ErrDoc)
    (parseOut : String → Option OutDoc) (s : TaskState)
    (evs : List PyEvent) : TaskState :=
  evs.foldl (pyStep parseErr parseOut) s

theorem pyRun_append (parseErr : String → Option ErrDoc)
    (parseOut : String → Option OutDoc) (s : TaskState)
    (l1 l2 : List PyEvent) :
    pyRun parseErr parseOut s (l1 ++ l2) =
      pyRun parseErr parseOut (pyRun parseErr parseOut s l1) l2 := by
  simp [pyRun, List.foldl_append]

theorem settled_persists (parseErr : String → Option ErrDoc)
    (parseOut : String → Option OutDoc) (s : TaskState) (t : Settlement)
    (h : s.settled = some t) (evs : List PyEvent) :
    (pyRun parseErr parseOut s evs).settled = some t := by
  induction evs generalizing s with
  | nil => simpa [pyRun]
  | cons e rest ih =>
      have hstep : (pyStep parseErr parseOut s e).settled = some t := by
        cases e with
        | stdoutData c => simpa [pyStep]
        | stderrData c => simpa [pyStep]
        | timerFires =>
            by_cases hc : s.timerCleared <;>
              simp [pyStep, hc, settleOnce, h]
        | close code => simp [pyStep, settleOnce, h]
      rw [pyRun, List.foldl_cons, ← pyRun]
      exact ih _ hstep

theorem chunks_leave_flags (parseErr : String → Option ErrDoc)
    (parseOut : String → Option OutDoc) (s : TaskState)
    (pre : List PyEvent) (h : ∀ e ∈ pre, isChunk e = true) :
    (pyRun parseErr parseOut s pre).settled = s.settled ∧
    (pyRun parseErr parseOut s pre).killed = s.killed ∧
    (pyRun parseErr parseOut s pre).timerCleared = s.timerCleared := by
  induction pre generalizing s with
  | nil => simp [pyRun]
  | cons e rest ih =>
      have he := h e (List.mem_cons_self e rest)
      have hrest : ∀ e2 ∈ rest, isChunk e2 = true :=
        fun e2 he2 => h e2 (List.mem_cons_of_mem e he2)
      rw [pyRun, List.foldl_cons, ← pyRun]
      have hstep : (pyStep parseErr parseOut s e).settled = s.settled ∧
          (pyStep parseErr parseOut s e).killed = s.killed ∧
          (pyStep parseErr parseOut s e).timerCleared = s.timerCleared := by
        cases e with
        | stdoutData c => simp [pyStep]
        | stderrData c => simp [pyStep]
        | timerFires => simp [isChunk] at he
        | close code => simp [isChunk] at he
      obtain ⟨h1, h2, h3⟩ := ih (pyStep parseErr parseOut s e) hrest
      rw [h1, h2, h3, hstep.1, hstep.2.1, hstep.2.2]
      exact ⟨rfl, rfl, rfl⟩

/-- C9 counterexample: a non-zero exit (code 1) with an EMPTY stderr
does not resolve as a ProcessError at all — the guard
`code !== 0 && error` fails, the handler falls through to the stdout
arm, and a parseable stdout yields a resolved Success.  The claim says
any non-zero exit resolves as a ProcessError. -/
theorem claim_C9_counterexample :
    classify (fun _ => none)
      (fun s => if s = "good" then some ⟨none, "payload"⟩ else none)
      1 "good" "" = .resolved ⟨none, "payload"⟩ := by decide

/-- C9 amended: on a non-zero exit with a NON-EMPTY stderr the task is
rejected with the parsed stderr document's error field (falling back to
the raw stderr text when the parse fails or the field is absent/empty,
with no diagnostics attached); on a non-zero exit with empty stderr the
outcome is instead decided by the stdout arm — resolved when stdout
parses (diagnostics stripped), rejected as Malformed otherwise; on a
clean exit whose stdout does not parse, rejected as Malformed. -/
theorem claim_C9_amended (parseErr : String → Option ErrDoc)
    (parseOut : String → Option OutDoc) (code : Int)
    (data error : String) :
    (code ≠ 0 → error ≠ "" →
      (∀ d, parseErr error = some d →
        classify parseErr parseOut code data error =
          .rejected (jsErrorOr d.error error)) ∧
      (parseErr error = none →
        classify parseErr parseOut code data error = .rejected error)) ∧
    (code ≠ 0 → error = "" →
      (∀ d, parseOut data = some d →
        classify parseErr parseOut code data error =
          .resolved (stripMemStats d)) ∧
      (parseOut data = none →
        classify parseErr parseOut code data error =
          .rejected INVALID_JSON_MSG)) ∧
    (code = 0 →
      (∀ d, parseOut data = some d →
        classify parseErr parseOut code data error =
          .resolved (stripMemStats d)) ∧
      (parseOut data = none →
        classify parseErr parseOut code data error =
          .rejected INVALID_JSON_MSG)) := by
  refine ⟨?_, ?_, ?_⟩
  · intro hc he
    constructor
    · intro d hd
      simp [classify, hc, he, hd]
    · intro hd
      simp [classify, hc, he, hd]
  · intro hc he
    constructor
    · intro d hd
      simp [classify, he, hd]
    · intro hd
      simp [classify, he, hd]
  · intro hc
    constructor
    · intro d hd
      simp [classify, hc, hd]
    · intro hd
      simp [classify, hc, hd]

/-- Witness for C9: concrete instances of the three arms — a non-zero
exit with parseable stderr, a non-zero exit with empty stderr and
unparseable stdout, and a clean exit with unparseable stdout. -/
theorem claim_C9_witness :
    ((2 : Int) ≠ 0 ∧ "errtext" ≠ "" ∧
      (fun s => if s = "errtext" then
          some (⟨some "boom", none⟩ : ErrDoc) else none) "errtext" =
        some ⟨some "boom", none⟩) ∧
    classify (fun s => if s = "errtext" then
        some (⟨some "boom", none⟩ : ErrDoc) else none)
      (fun _ => none) 2 "junk" "errtext" = .rejected "boom" ∧
    classify (fun s => if s = "errtext" then
        some (⟨some "boom", none⟩ : ErrDoc) else none)
      (fun _ => none) 2 "junk" "" = .rejected INVALID_JSON_MSG ∧
    classify (fun s => if s = "errtext" then
        some (⟨some "boom", none⟩ : ErrDoc) else none)
      (fun _ => none) 0 "junk" "ignored" = .rejected INVALID_JSON_MSG :=
  ⟨⟨by decide, by decide, by decide⟩,
   by
    have h := (claim_C9_amended (fun s => if s = "errtext" then
        some (⟨some "boom", none⟩ : ErrDoc) else none)
      (fun _ => none) 2 "junk" "errtext").1 (by decide) (by decide)
    have := h.1 ⟨some "boom", none⟩ (by decide)
    simpa [jsErrorOr] using this,
   ((claim_C9_amended (fun s => if s = "errtext" then
        some (⟨some "boom", none⟩ : ErrDoc) else none)
      (fun _ => none) 2 "junk" "").2.1 (by decide) rfl).2 rfl,
   ((claim_C9_amended (fun s => if s = "errtext" then
        some (⟨some "boom", none⟩ : ErrDoc) else none)
      (fun _ => none) 0 "junk" "ignored").2.2 rfl).2 rfl⟩

/-- C10: if the wall-clock timer fires before the process exits (any
run whose events are stream chunks followed by the timer), the task is
killed and its promise settles right there as the rejected
QUEUE_TIMEOUT outcome; no later event — including a process close
carrying parseable output — can change the settlement, so partial
output is discarded and never returned as a Success or Malformed
payload; the timeout outcome is neither a resolved Success nor the
Malformed rejection; and the settlement is what frees the queue slot:
the queue's completion transition decrements the active count. -/
theorem claim_C10_timeout_kills_and_frees
    (parseErr : String → Option ErrDoc)
    (parseOut : String → Option OutDoc) (pre post : List PyEvent)
    (hpre : ∀ e ∈ pre, isChunk e = true) :
    (pyRun parseErr parseOut {} (pre ++ [.timerFires])).settled =
      some (.rejected QUEUE_TIMEOUT_MSG) ∧
    (pyRun parseErr parseOut {} (pre ++ [.timerFires])).killed = true ∧
    (pyRun parseErr parseOut {} ((pre ++ [.timerFires]) ++ post)).settled =
      some (.rejected QUEUE_TIMEOUT_MSG) ∧
    (∀ d, ¬(Settlement.rejected QUEUE_TIMEOUT_MSG = .resolved d)) ∧
    ¬(QUEUE_TIMEOUT_MSG = INVALID_JSON_MSG) ∧
    (∀ t : RQ.QState, 0 < t.active → t.waiting = [] →
      (RQ.qStep t .complete).active = t.active - 1) := by
  obtain ⟨h1, h2, h3⟩ :=
    chunks_leave_flags parseErr parseOut {} pre hpre
  have h1a : (pyRun parseErr parseOut {} pre).settled = none := by
    simpa using h1
  have h3a : (pyRun parseErr parseOut {} pre).timerCleared = false := by
    simpa using h3
  have hsingle : ∀ m : TaskState,
      pyRun parseErr parseOut m [.timerFires] =
        pyStep parseErr parseOut m .timerFires := fun m => rfl
  have hmid : (pyRun parseErr parseOut {} (pre ++ [.timerFires])).settled =
      some (.rejected QUEUE_TIMEOUT_MSG) ∧
      (pyRun parseErr parseOut {} (pre ++ [.timerFires])).killed = true := by
    rw [pyRun_append, hsingle]
    constructor <;> simp [pyStep, h1a, h3a, settleOnce]
  refine ⟨hmid.1, hmid.2, ?_, ?_, ?_, ?_⟩
  · rw [pyRun_append]
    exact settled_persists parseErr parseOut _ _ hmid.1 post
  · intro d h
    cases h
  · decide
  · intro t ht hw
    have h0 : t.active ≠ 0 := by omega
    simp [RQ.qStep, h0, RQ.processQueue, hw]

/-- Witness for C10: a partial stdout chunk arrives, the timer fires,
and only afterwards the process closes cleanly with parseable output —
the outcome is still the QUEUE_TIMEOUT rejection. -/
theorem claim_C10_witness :
    (∀ e ∈ [PyEvent.stdoutData "partial"], isChunk e = true) ∧
    ((pyRun (fun _ => none) (fun _ => some ⟨none, "full"⟩) {}
        ([.stdoutData "partial"] ++ [.timerFires])).settled =
      some (.rejected QUEUE_TIMEOUT_MSG) ∧
     (pyRun (fun _ => none) (fun _ => some ⟨none, "full"⟩) {}
        ([.stdoutData "partial"] ++ [.timerFires])).killed = true ∧
     (pyRun (fun _ => none) (fun _ => some ⟨none, "full"⟩) {}
        (([.stdoutData "partial"] ++ [.timerFires]) ++
          [.close 0])).settled =
      some (.rejected QUEUE_TIMEOUT_MSG) ∧
     (∀ d, ¬(Settlement.rejected QUEUE_TIMEOUT_MSG = .resolved d)) ∧
     ¬(QUEUE_TIMEOUT_MSG = INVALID_JSON_MSG) ∧
     (∀ t : RQ.QState, 0 < t.active → t.waiting = [] →
       (RQ.qStep t .complete).active = t.active - 1)) :=
  ⟨by decide,
   claim_C10_timeout_kills_and_frees (fun _ => none)
     (fun _ => some ⟨none, "full"⟩) [.stdoutData "partial"] [.close 0]
     (by decide)⟩

end PyAdapter

namespace RQ

/-- C2: at every reachable state of the admission queue — for any
sequence of submissions and task completions, including bursts beyond
capacity — `activeCount` never exceeds `maxConcurrency`, which is a
positive integer fixed at construction (the constructor default is
itself always positive). -/
theorem claim_C2_activeCount_bounded (m : Nat) (hpos : 1 ≤ m)
    (evs : List QEvent) :
    (qRun (qInit m) evs).active ≤ m ∧
    (qRun (qInit m) evs).maxConcurrent = m ∧
    (∀ cpus : Nat, 1 ≤ defaultMaxConcurrent cpus) := by
  have hinv := qInv_run (qInit m) evs (qInv_init m)
  have hmax : (qRun (qInit m) evs).maxConcurrent = m := by
    rw [qRun_maxConcurrent]; rfl
  exact ⟨le_of_le_of_eq hinv.1 hmax, hmax,
    fun cpus => Nat.le_max_left 1 (cpus * 3 / 4)⟩

/-- Witness for C2: a burst of four submissions against capacity 2. -/
theorem claim_C2_witness :
    1 ≤ 2 ∧
    ((qRun (qInit 2) [.submit, .submit, .submit, .submit]).active ≤ 2 ∧
     (qRun (qInit 2) [.submit, .submit, .submit, .submit]).maxConcurrent = 2 ∧
     (∀ cpus : Nat, 1 ≤ defaultMaxConcurrent cpus)) :=
  ⟨by decide,
   claim_C2_activeCount_bounded 2 (by decide) [.submit, .submit, .submit, .submit]⟩

/-- C3: queued tasks start in exactly their submission order.  In every
reachable state the ids of parked tasks that have started, followed by
the ids still waiting, form the submission order `range nextId`, so the
start order `started` is always an initial segment of the submission
order; and the completion transition decrements the active count and,
when the waiting list is non-empty and capacity allows, pops exactly
the head of the waiting list and begins it. -/
theorem claim_C3_fifo_start_order (m : Nat) (evs : List QEvent)
    (t : QState) (ht : 0 < t.active) :
    ((qRun (qInit m) evs).started ++ (qRun (qInit m) evs).waiting =
        List.range (qRun (qInit m) evs).nextId ∧
     (qRun (qInit m) evs).started =
        List.range (qRun (qInit m) evs).started.length) ∧
    (t.waiting = [] →
        (qStep t .complete).active = t.active - 1 ∧
        (qStep t .complete).started = t.started ∧
        (qStep t .complete).waiting = []) ∧
    (∀ hd tl, t.waiting = hd :: tl → t.active - 1 < t.maxConcurrent →
        (qStep t .complete).active = t.active ∧
        (qStep t .complete).waiting = tl ∧
        (qStep t .complete).started = t.started ++ [hd]) := by
  have h0 : t.active ≠ 0 := by omega
  refine ⟨?_, ?_, ?_⟩
  · obtain ⟨-, h2⟩ := qInv_run (qInit m) evs (qInv_init m)
    refine ⟨h2, ?_⟩
    set s := qRun (qInit m) evs with hs
    have hlen : s.started.length ≤ s.nextId := by
      have := congrArg List.length h2
      simp only [List.length_append, List.length_range] at this
      omega
    calc s.started = (s.started ++ s.waiting).take s.started.length := by
          rw [List.take_left]
      _ = (List.range s.nextId).take s.started.length := by rw [h2]
      _ = List.range s.started.length := by
          rw [List.take_range, Nat.min_eq_left hlen]
  · intro hw
    simp [qStep, h0, processQueue, hw]
  · intro hd tl hw hc
    have ha : t.active - 1 + 1 = t.active := by omega
    simp [qStep, h0, processQueue, hw, hc, ha]

/-- Witness for C3 at capacity 1 with a parked task, and a concrete
completing state with one active task and ids 5 waiting. -/
theorem claim_C3_witness :
    0 < (⟨1, 1, [5], 6, [4]⟩ : QState).active ∧
    (((qRun (qInit 1) [.submit, .submit, .complete]).started ++
        (qRun (qInit 1) [.submit, .submit, .complete]).waiting =
        List.range (qRun (qInit 1) [.submit, .submit, .complete]).nextId ∧
      (qRun (qInit 1) [.submit, .submit, .complete]).started =
        List.range (qRun (qInit 1) [.submit, .submit, .complete]).started.length) ∧
     ((⟨1, 1, [5], 6, [4]⟩ : QState).waiting = [] →
        (qStep ⟨1, 1, [5], 6, [4]⟩ .complete).active =
          (⟨1, 1, [5], 6, [4]⟩ : QState).active - 1 ∧
        (qStep ⟨1, 1, [5], 6, [4]⟩ .complete).started =
          (⟨1, 1, [5], 6, [4]⟩ : QState).started ∧
        (qStep ⟨1, 1, [5], 6, [4]⟩ .complete).waiting = []) ∧
     (∀ hd tl, (⟨1, 1, [5], 6, [4]⟩ : QState).waiting = hd :: tl →
        (⟨1, 1, [5], 6, [4]⟩ : QState).active - 1 <
          (⟨1, 1, [5], 6, [4]⟩ : QState).maxConcurrent →
        (qStep ⟨1, 1, [5], 6, [4]⟩ .complete).active =
          (⟨1, 1, [5], 6, [4]⟩ : QState).active ∧
        (qStep ⟨1, 1, [5], 6, [4]⟩ .complete).waiting = tl ∧
        (qStep ⟨1, 1, [5], 6, [4]⟩ .complete).started =
          (⟨1, 1, [5], 6, [4]⟩ : QState).started ++ [hd])) :=
  ⟨by decide,
   claim_C3_fifo_start_order 1 [.submit, .submit, .complete]
     ⟨1, 1, [5], 6, [4]⟩ (by decide)⟩

end RQ

namespace FantasyRoute

open Fantasy

/-- The inline FastF1 python script of routes/fantasy.js with the route
parameters interpolated.  Its python content is opaque to the handler
— only the fact that it is spawned directly as `python3 -c <script>`
matters here — so the body is abstracted to a tag of its parameters. -/
def inlineScript (year round : String) : String :=
  "fastf1 qualifying and race results for " ++ year ++ " round " ++ round

/-- The externally observable effects a points request can perform. -/
inductive Effect where
  | spawnPython (args : List String)
  | cacheLookup (key : String)
  | queueSubmit
  | cacheStore (key : String)
  deriving Repr, DecidableEq

/-- `true` exactly for a direct python spawn. -/
def isSpawnPython : Effect → Bool
  | .spawnPython _ => true
  | _ => false

/-- The document printed by the python script: per-driver qualifying
and race records, event metadata (opaque here), and the error field of
the script's except-branch. -/
structure ResultsDoc where
  error : Option String := none
  qualifying : List QualifyingResult := []
  race : List RaceResult := []
  event_info : String := ""
  deriving Repr, DecidableEq

/-- One driver's `{total, qualifying, race}` entry. -/
structure DriverPoints where
  total : Int
  qualifying : ScoreResult
  race : ScoreResult
  deriving Repr, DecidableEq

/-- `results.qualifying.forEach(...)`: for each qualifying record find
the race record with the same driver; skip the driver if absent;
otherwise score both sessions and record
`{total, qualifying, race}` under the driver id. -/
def buildPoints (results : ResultsDoc) : List (String × DriverPoints) :=
  results.qualifying.foldl
    (fun fantasyPoints qualiResult =>
      match results.race.find? (fun r => r.driver == qualiResult.driver) with
      | none => fantasyPoints
      | some raceResult =>
          let qualifyingPoints := calculateQualifyingPoints qualiResult
          let racePoints := calculateRacePoints raceResult qualiResult
          JsMap.set fantasyPoints qualiResult.driver
            ⟨qualifyingPoints.points + racePoints.points,
             qualifyingPoints, racePoints⟩)
    []

/-- The responses the handler can send. -/
inductive RouteResponse where
  | ok (event : String) (points : List (String × DriverPoints))
      (unprocessed : ResultsDoc)
  | serverError (message details : String)
  deriving Repr, DecidableEq

/-- The GET /points/:year/:round handler of routes/fantasy.js, with its
observable effects recorded.  The handler spawns
`python3 -c <inline script>` directly and then, in the close handler:
non-zero exit → 500 "Error fetching race data"; stdout whose
brace-substring fails to extract or parse (`extractParse` = the
indexOf/lastIndexOf slice plus JSON.parse) → 500 "Error processing
results"; a document with a truthy error field → 500 "Error in Python
script"; otherwise the response `{event, points, unprocessed}`.
The effect trace contains the spawn alone: no cache lookup, no
admission-queue submission, no cache store appears anywhere in the
handler. -/
def pointsHandler (year round : String) (code : Int)
    (stdout stderr : String)
    (extractParse : String → Option ResultsDoc) :
    RouteResponse × List Effect :=
  let effects := [Effect.spawnPython ["-c", inlineScript year round]]
  let response :=
    if code ≠ 0 then
      RouteResponse.serverError "Error fetching race data" stderr
    else
      match extractParse stdout with
      | none => .serverError "Error processing results" stdout
      | some results =>
          match results.error with
          | some e =>
              if e = "" then
                .ok results.event_info (buildPoints results) results
              else .serverError "Error in Python script" e
          | none => .ok results.event_info (buildPoints results) results
  (response, effects)

/-- C1 (falsified by the code, welcome theorem): evaluated at the
failing input year=2024, round=1, the handler's entire effect trace is
the single direct python spawn — there is no cache lookup keyed on the
parameters, no admission-queue submission on a miss, and no cache
store of the assembled response; and this holds for every input, not
just the failing one. -/
theorem claim_C1_route_has_no_cache_or_queue :
    (pointsHandler "2024" "1" 0 "out" ""
        (fun _ => none)).2 =
      [Effect.spawnPython ["-c", inlineScript "2024" "1"]] ∧
    ((pointsHandler "2024" "1" 0 "out" ""
        (fun _ => none)).2.all isSpawnPython) = true ∧
    (∀ (year round : String) (code : Int) (stdout stderr : String)
        (extractParse : String → Option ResultsDoc),
      ((pointsHandler year round code stdout stderr
          extractParse).2.all isSpawnPython) = true) :=
  ⟨rfl, rfl, fun _ _ _ _ _ _ => rfl⟩

end FantasyRoute
